import Mathlib

/-!
Shallow embedding of the MCP server manager of `src/src-tauri/src/mcp.rs`
and the `list_tools_from_config` command of `src/src-tauri/src/lib.rs`.

JSON values (`serde_json::Value`) are modelled by the inductive `Json`;
`serde_json::Map` by an association list with first-match lookup and
replace-or-append insertion (`Smap.*`).  The process side effects of
`start_server` (child spawn and MCP handshake) are modelled by an oracle
`spawn : MCPServerConfig → Except String Unit` together with a counter
`nextPid` that allocates one fresh process id per successful spawn, so a
spawn is observable in the manager state.  The remote ends of `call_tool`
and `list_tools` are likewise oracles supplied as arguments.
-/

/-- Model of `serde_json::Value`. Numbers are modelled as integers; none of
the verified claims depends on float representation. -/
inductive Json where
  | null : Json
  | bool : Bool → Json
  | num : Int → Json
  | str : String → Json
  | arr : List Json → Json
  | obj : List (String × Json) → Json

/-- First-match lookup in an association list (`serde_json::Map::get`). -/
def Smap.get {α : Type} : List (String × α) → String → Option α
  | [], _ => none
  | (k, v) :: rest, key => if k = key then some v else Smap.get rest key

/-- `serde_json::Map::contains_key`. -/
def Smap.containsKey {α : Type} (m : List (String × α)) (key : String) : Bool :=
  (Smap.get m key).isSome

/-- Replace-or-append insertion (`serde_json::Map::insert` /
`HashMap::insert`): replaces the binding of `key` if present, appends
otherwise. -/
def Smap.insert {α : Type} : List (String × α) → String → α → List (String × α)
  | [], key, val => [(key, val)]
  | (k, v) :: rest, key, val =>
      if k = key then (key, val) :: rest else (k, v) :: Smap.insert rest key val

/-- The keys of the map, in entry order (`Map::keys`). -/
def Smap.keys {α : Type} (m : List (String × α)) : List String :=
  m.map Prod.fst

/-- Number of entries carrying `key` (1 on any well-formed map that
contains the key). -/
def Smap.countKey {α : Type} (m : List (String × α)) (key : String) : Nat :=
  m.countP (fun kv => kv.fst = key)

/-- `Value::as_str`. -/
def Json.asStr : Json → Option String
  | .str s => some s
  | _ => none

/-- `Value::as_object`. -/
def Json.asObj : Json → Option (List (String × Json))
  | .obj m => some m
  | _ => none

/-- `Value::as_array`. -/
def Json.asArr : Json → Option (List Json)
  | .arr xs => some xs
  | _ => none

/-- `Value::get` on an object (returns `none` on every other variant). -/
def Json.getKey : Json → String → Option Json
  | .obj m, key => Smap.get m key
  | _, _ => none

/-- Whether the value is a JSON object. -/
def Json.isObj : Json → Bool
  | .obj _ => true
  | _ => false

/-- `MCPToolInputSchema` of `mcp.rs`. -/
structure MCPToolInputSchema where
  schema_type : String
  properties : List (String × Json)
  required : Option (List String)
  description : Option String
  title : Option String
  additional_properties : List (String × Json)

/-- The `Default` impl of `MCPToolInputSchema`: the empty object schema. -/
def defaultInputSchema : MCPToolInputSchema :=
  { schema_type := "object"
    properties := []
    required := none
    description := none
    title := none
    additional_properties := [] }

/-- `MCPTool` of `mcp.rs`. -/
structure MCPTool where
  name : String
  description : String
  input_schema : MCPToolInputSchema

/-- `ToolCallResult` of `mcp.rs`. -/
structure ToolCallResult where
  success : Bool
  result : Option Json
  error : Option String

/-- The five top-level keys `convert_input_schema` recognizes; every other
key goes to `additional_properties`. -/
def recognizedKey (k : String) : Bool :=
  k == "type" || k == "properties" || k == "required" || k == "description" || k == "title"

/-- The body of the catch-all loop of `convert_input_schema`: an
unrecognized key is inserted into the accumulated extra-key bag. -/
def addExtra (acc : List (String × Json)) (kv : String × Json) : List (String × Json) :=
  if recognizedKey kv.fst then acc else Smap.insert acc kv.fst kv.snd

/-- `MCPServerManager::convert_input_schema`: the Schema Normalizer.  Each
field mirrors one of the sequential updates of the Rust function starting
from `MCPToolInputSchema::default()`; the updates touch disjoint fields, so
the record literal is the same computation. -/
def convert_input_schema (schema : Json) : MCPToolInputSchema :=
  match schema with
  | .obj obj =>
      { schema_type :=
          match Smap.get obj "type" with
          | some t =>
              match t.asStr with
              | some ts => ts
              | none => "object"
          | none => "object"
        properties :=
          match Smap.get obj "properties" with
          | some p =>
              match p.asObj with
              | some po => po
              | none => []
          | none => []
        required :=
          match Smap.get obj "required" with
          | some r =>
              match r.asArr with
              | some xs =>
                  let required_strings := xs.filterMap Json.asStr
                  if required_strings.isEmpty then none else some required_strings
              | none => none
          | none => none
        description :=
          match Smap.get obj "description" with
          | some d =>
              match d.asStr with
              | some ds => some ds
              | none => none
          | none => none
        title :=
          match Smap.get obj "title" with
          | some t =>
              match t.asStr with
              | some ts => some ts
              | none => none
          | none => none
        additional_properties := obj.foldl addExtra [] }
  | _ => defaultInputSchema

/-- The schema invariant of the spec: every entry of `required` (when
present) is a key of `properties`. -/
def schemaConsistent (s : MCPToolInputSchema) : Bool :=
  (s.required.getD []).all (fun r => Smap.containsKey s.properties r)

/-- The inner loop of `MCPServerManager::validate_tool_schema`: first
`required` entry missing from `properties` produces the error. -/
def checkRequiredFields (toolName : String) (props : List (String × Json)) :
    List String → Except String Unit
  | [] => .ok ()
  | r :: rest =>
      if Smap.containsKey props r then checkRequiredFields toolName props rest
      else .error ("Tool '" ++ toolName ++ "' requires field '" ++ r
        ++ "' but it's not defined in properties")

/-- `MCPServerManager::validate_tool_schema`. -/
def validate_tool_schema (tool : MCPTool) : Except String Unit :=
  if tool.input_schema.schema_type ≠ "object" then
    .error ("Tool '" ++ tool.name ++ "' has invalid schema type '"
      ++ tool.input_schema.schema_type ++ "', expected 'object'")
  else
    match tool.input_schema.required with
    | some required => checkRequiredFields tool.name tool.input_schema.properties required
    | none => .ok ()

/-- `MCPServerConfig` of `mcp.rs`.  `env` is modelled as an association
list; `port` (`Option<u16>`) as an optional natural number below 2^16. -/
structure MCPServerConfig where
  name : String
  command : Option String
  args : Option (List String)
  env : Option (List (String × String))
  transport : String
  url : Option String
  port : Option Nat
deriving DecidableEq

/-- The observable state of `MCPServerManager`: its `connections` map
(server name to the connection's process id) and a `nextPid` counter that
records how many processes have been spawned so far — each successful
stdio spawn allocates one fresh pid, so spawning is observable. -/
structure ManagerState where
  connections : List (String × Nat)
  nextPid : Nat
deriving DecidableEq

/-- `MCPServerManager::start_stdio_server`.  The child spawn plus MCP
handshake (`TokioChildProcess::new` and `().serve(transport)`) is the
oracle `spawn`; on its success the new connection is inserted under
`config.name`, replacing any previous entry, exactly as
`connections.insert` does in the Rust. -/
def start_stdio_server (st : ManagerState)
    (spawn : MCPServerConfig → Except String Unit)
    (config : MCPServerConfig) : Except String (ManagerState × String) :=
  match config.command with
  | none => .error "Command is required for stdio transport"
  | some _ =>
      match spawn config with
      | .error e => .error e
      | .ok _ =>
          .ok ({ connections := Smap.insert st.connections config.name st.nextPid
                 nextPid := st.nextPid + 1 },
               "Started and connected to MCP server: " ++ config.name)

/-- `MCPServerManager::start_server`: dispatch on the transport string.
For http and websocket the Rust only returns a message — the manager
state is untouched and no connection is registered. -/
def start_server (st : ManagerState)
    (spawn : MCPServerConfig → Except String Unit)
    (config : MCPServerConfig) : Except String (ManagerState × String) :=
  if config.transport = "stdio" then
    start_stdio_server st spawn config
  else if config.transport = "http" then
    .ok (st, "HTTP server configured: " ++ config.name)
  else if config.transport = "websocket" then
    .ok (st, "WebSocket server configured: " ++ config.name)
  else
    .error ("Unsupported transport: " ++ config.transport)

/-- `MCPServerManager::is_server_alive`: membership in the connections map. -/
def is_server_alive (st : ManagerState) (server_name : String) : Bool :=
  Smap.containsKey st.connections server_name

/-- `MCPServerManager::call_tool`.  The remote round trip
(`connection.client.call_tool`) is the oracle `remote`, fed with the
server name, the tool name and the argument map after the lenient
non-object-to-empty-map coercion of the Rust. -/
def call_tool (st : ManagerState)
    (remote : String → String → List (String × Json) → Except String Json)
    (server_name tool_name : String) (arguments : Json) : ToolCallResult :=
  if Smap.containsKey st.connections server_name then
    let args_map :=
      match arguments with
      | .obj o => o
      | _ => []
    match remote server_name tool_name args_map with
    | .ok r => { success := true, result := some r, error := none }
    | .error e => { success := false, result := none, error := some e }
  else
    { success := false, result := none, error := some ("Server '" ++ server_name ++ "' not found") }

/-- One tool as it arrives on the wire in `list_tools` before conversion:
`rmcp::model::Tool`'s name, optional description and the serialized
`input_schema` value. -/
structure RawTool where
  name : String
  description : Option String
  input_schema : Json

/-- The body of the per-tool loop of `MCPServerManager::list_tools`:
defaulted description and normalized schema. -/
def convertTool (t : RawTool) : MCPTool :=
  { name := t.name
    description := t.description.getD ""
    input_schema := convert_input_schema t.input_schema }

/-- `MCPServerManager::list_tools`.  The remote catalog request
(`connection.client.list_all_tools`) is the oracle `listRemote`; its
error is wrapped like the Rust's, and an unregistered name is an error. -/
def list_tools (st : ManagerState)
    (listRemote : String → Except String (List RawTool))
    (server_name : String) : Except String (List MCPTool) :=
  if Smap.containsKey st.connections server_name then
    match listRemote server_name with
    | .ok tools_response => .ok (tools_response.map convertTool)
    | .error e => .error ("Failed to list tools: " ++ e)
  else
    .error ("Server '" ++ server_name ++ "' not found")

/-- The aggregation loop of `MCPServerManager::list_all_tools` over the
registered server names: a successful listing contributes its tools with
the `server:tool` name disambiguation, a failing server is skipped. -/
def collectAllTools (st : ManagerState)
    (listRemote : String → Except String (List RawTool)) :
    List String → List MCPTool
  | [] => []
  | server_name :: rest =>
      (match list_tools st listRemote server_name with
       | .ok tools => tools.map (fun t => { t with name := server_name ++ ":" ++ t.name })
       | .error _ => []) ++ collectAllTools st listRemote rest

/-- `MCPServerManager::list_all_tools`: always `Ok`, over the keys of the
connections map. -/
def list_all_tools (st : ManagerState)
    (listRemote : String → Except String (List RawTool)) :
    Except String (List MCPTool) :=
  .ok (collectAllTools st listRemote (Smap.keys st.connections))

/-- Serde deserialization of an `Option<String>` field: absent or null is
`none`, a string is `some`, anything else is a type error. -/
def parseOptStr (m : List (String × Json)) (key : String) : Except String (Option String) :=
  match Smap.get m key with
  | none => .ok none
  | some .null => .ok none
  | some (.str s) => .ok (some s)
  | some _ => .error ("invalid type for field " ++ key)

/-- Serde deserialization of a `Vec<String>` element list. -/
def parseStrList : List Json → Except String (List String)
  | [] => .ok []
  | .str s :: rest =>
      match parseStrList rest with
      | .ok l => .ok (s :: l)
      | .error e => .error e
  | _ :: _ => .error "invalid type: expected a string"

/-- Serde deserialization of the `Option<Vec<String>>` field `args`. -/
def parseOptStrList (m : List (String × Json)) (key : String) :
    Except String (Option (List String)) :=
  match Smap.get m key with
  | none => .ok none
  | some .null => .ok none
  | some (.arr xs) =>
      match parseStrList xs with
      | .ok l => .ok (some l)
      | .error e => .error e
  | some _ => .error ("invalid type for field " ++ key)

/-- Serde deserialization of a string-to-string object (the value of the
`env` field). -/
def parseStrPairs : List (String × Json) → Except String (List (String × String))
  | [] => .ok []
  | (k, .str s) :: rest =>
      match parseStrPairs rest with
      | .ok l => .ok ((k, s) :: l)
      | .error e => .error e
  | _ :: _ => .error "invalid type: expected a string"

/-- Serde deserialization of the `Option<HashMap<String, String>>` field `env`. -/
def parseOptEnv (m : List (String × Json)) :
    Except String (Option (List (String × String))) :=
  match Smap.get m "env" with
  | none => .ok none
  | some .null => .ok none
  | some (.obj kvs) =>
      match parseStrPairs kvs with
      | .ok l => .ok (some l)
      | .error e => .error e
  | some _ => .error "invalid type for field env"

/-- Serde deserialization of the `transport` field, with the
`#[serde(default = "default_transport")]` fallback to the literal
`"stdio"` when the field is absent. -/
def parseTransport (m : List (String × Json)) : Except String String :=
  match Smap.get m "transport" with
  | none => .ok "stdio"
  | some (.str s) => .ok s
  | some _ => .error "invalid type for field transport"

/-- Serde deserialization of the `Option<u16>` field `port`. -/
def parseOptPort (m : List (String × Json)) : Except String (Option Nat) :=
  match Smap.get m "port" with
  | none => .ok none
  | some .null => .ok none
  | some (.num n) =>
      if 0 ≤ n ∧ n < 65536 then .ok (some n.toNat)
      else .error "invalid value for field port"
  | some _ => .error "invalid type for field port"

/-- Serde deserialization of `MCPServerConfig` from a JSON value
(`serde_json::from_value`): `name` is mandatory, `transport` defaults to
stdio, the optional fields accept absent or null, unknown keys are
ignored.  Error texts abbreviate serde's. -/
def parseServerConfig (j : Json) : Except String MCPServerConfig :=
  match j with
  | .obj m =>
      match Smap.get m "name" with
      | some (.str name) =>
          match parseOptStr m "command" with
          | .error e => .error e
          | .ok command =>
            match parseOptStrList m "args" with
            | .error e => .error e
            | .ok args =>
              match parseOptEnv m with
              | .error e => .error e
              | .ok env =>
                match parseTransport m with
                | .error e => .error e
                | .ok transport =>
                  match parseOptStr m "url" with
                  | .error e => .error e
                  | .ok url =>
                    match parseOptPort m with
                    | .error e => .error e
                    | .ok port =>
                      .ok { name := name, command := command, args := args, env := env,
                            transport := transport, url := url, port := port }
      | some _ => .error "invalid type for field name"
      | none => .error "missing field name"
  | _ => .error "invalid type: expected an object"

/-- The per-entry mutation of the `mcpServers` branch of
`list_tools_from_config` (`lib.rs`): when the entry's settings value is
an object, insert the map key as `name` and the literal `"stdio"` as
`transport` (both replacing any present value); a non-object settings
value is passed through unchanged. -/
def injectEntry (name : String) (server_config : Json) : Json :=
  match server_config with
  | .obj o => .obj (Smap.insert (Smap.insert o "name" (.str name)) "transport" (.str "stdio"))
  | v => v

/-- The `mcpServers` loop of `list_tools_from_config`: each entry is
injected and deserialized; the first failing entry aborts the whole call
with the wrapped serde error. -/
def parseMcpEntries : List (String × Json) → Except String (List MCPServerConfig)
  | [] => .ok []
  | (name, sc) :: rest =>
      match parseServerConfig (injectEntry name sc) with
      | .error e => .error ("Invalid server config: " ++ e)
      | .ok cfg =>
          match parseMcpEntries rest with
          | .ok cfgs => .ok (cfg :: cfgs)
          | .error e => .error e

/-- The `servers` array loop of `list_tools_from_config`: each element is
deserialized as is; the first failing element aborts the whole call. -/
def parseServersArray : List Json → Except String (List MCPServerConfig)
  | [] => .ok []
  | sc :: rest =>
      match parseServerConfig sc with
      | .error e => .error ("Invalid server config: " ++ e)
      | .ok cfg =>
          match parseServersArray rest with
          | .ok cfgs => .ok (cfg :: cfgs)
          | .error e => .error e

/-- The shape dispatch of `list_tools_from_config`: an `mcpServers`
object, else a `servers` array, else the descriptive shape error. -/
def normalizeServersConfig (config : Json) : Except String (List MCPServerConfig) :=
  match (config.getKey "mcpServers").bind Json.asObj with
  | some mcp_servers => parseMcpEntries mcp_servers
  | none =>
      match (config.getKey "servers").bind Json.asArr with
      | some servers_array => parseServersArray servers_array
      | none => .error "Invalid config: missing mcpServers object or servers array"

/-- The per-server loop of `list_tools_from_config`: ensure the server is
alive (a start failure skips the server), then list its tools, prefixing
each tool name with the owning server's name and a double underscore; a
listing failure also just skips the server.  The settle sleep after a
fresh spawn has no observable effect in this state model. -/
def processServers (spawn : MCPServerConfig → Except String Unit)
    (listRemote : String → Except String (List RawTool)) :
    List MCPServerConfig → ManagerState → List MCPTool × ManagerState
  | [], st => ([], st)
  | cfg :: rest, st =>
      if is_server_alive st cfg.name then
        let tools :=
          match list_tools st listRemote cfg.name with
          | .ok ts => ts.map (fun t => { t with name := cfg.name ++ "__" ++ t.name })
          | .error _ => []
        let (restTools, stFinal) := processServers spawn listRemote rest st
        (tools ++ restTools, stFinal)
      else
        match start_server st spawn cfg with
        | .error _ => processServers spawn listRemote rest st
        | .ok (st2, _) =>
            let tools :=
              match list_tools st2 listRemote cfg.name with
              | .ok ts => ts.map (fun t => { t with name := cfg.name ++ "__" ++ t.name })
              | .error _ => []
            let (restTools, stFinal) := processServers spawn listRemote rest st2
            (tools ++ restTools, stFinal)

/-- The `list_tools_from_config` Tauri command of `lib.rs`: normalize the
blob, then run the per-server loop; a shape or per-entry deserialization
error aborts before any server is touched, and the loop itself always
succeeds with the union of the tools it could obtain. -/
def list_tools_from_config (st : ManagerState)
    (spawn : MCPServerConfig → Except String Unit)
    (listRemote : String → Except String (List RawTool))
    (config : Json) : Except String (List MCPTool) × ManagerState :=
  match normalizeServersConfig config with
  | .error e => (.error e, st)
  | .ok servers_config =>
      let (all_tools, stFinal) := processServers spawn listRemote servers_config st
      (.ok all_tools, stFinal)

/-- The `properties` object `convert_input_schema` extracts from an input
object (empty unless the `properties` key holds an object). -/
def extractedProps (m : List (String × Json)) : List (String × Json) :=
  match Smap.get m "properties" with
  | some p =>
      match p.asObj with
      | some po => po
      | none => []
  | none => []

/-- The list of required-field strings `convert_input_schema` extracts
from an input object (empty unless the `required` key holds an array; the
array's non-string elements are dropped). -/
def extractedRequired (m : List (String × Json)) : List String :=
  match Smap.get m "required" with
  | some r =>
      match r.asArr with
      | some xs => xs.filterMap Json.asStr
      | none => []
  | none => []

/-- Whether the raw input already satisfies the schema invariant: each
string of its `required` array names a key of its `properties` object
(vacuously true off the object/array shapes). -/
def requiredSubsetOfProps : Json → Bool
  | .obj m => (extractedRequired m).all (fun r => Smap.containsKey (extractedProps m) r)
  | _ => true

/-- A concrete stdio configuration (named `a`, command `cat`). -/
def cfgA : MCPServerConfig :=
  { name := "a", command := some "cat", args := none, env := none,
    transport := "stdio", url := none, port := none }

/-- A concrete http configuration (named `h`). -/
def httpCfg : MCPServerConfig :=
  { name := "h", command := none, args := none, env := none,
    transport := "http", url := some "http://localhost", port := some 8080 }

/-- The server configuration produced for the `echo` entry of the spec's
example blob. -/
def echoCfg : MCPServerConfig :=
  { name := "echo", command := some "echo", args := none, env := none,
    transport := "stdio", url := none, port := none }

/-- A spawn oracle on which every spawn attempt succeeds. -/
def spawnAlwaysOk : MCPServerConfig → Except String Unit := fun _ => .ok ()

/-- A concrete remote tool, as listed by a server. -/
def rawT1 : RawTool :=
  { name := "t1", description := some "a tool", input_schema := .obj [] }

/-- A listing oracle where server `s1` succeeds with `rawT1` and every
other server fails. -/
def listOneGoodServer : String → Except String (List RawTool) := fun n =>
  if n = "s1" then .ok [rawT1] else .error "connection closed"

/-- A concrete tool whose schema passes validation. -/
def toolGood : MCPTool :=
  { name := "good"
    description := ""
    input_schema :=
      { schema_type := "object"
        properties := [("x", .null)]
        required := some ["x"]
        description := none
        title := none
        additional_properties := [] } }

/-! ### Map lemmas -/

theorem Smap.get_insert_self {α : Type} (m : List (String × α)) (k : String) (v : α) :
    Smap.get (Smap.insert m k v) k = some v := by
  induction m with
  | nil => simp [Smap.insert, Smap.get]
  | cons hd tl ih =>
      obtain ⟨k1, v1⟩ := hd
      by_cases h : k1 = k
      · simp [Smap.insert, h, Smap.get]
      · simp [Smap.insert, h, Smap.get, ih]

theorem Smap.get_insert_ne {α : Type} (m : List (String × α)) (k k0 : String) (v : α)
    (h : k ≠ k0) : Smap.get (Smap.insert m k v) k0 = Smap.get m k0 := by
  induction m with
  | nil => simp [Smap.insert, Smap.get, h]
  | cons hd tl ih =>
      obtain ⟨k1, v1⟩ := hd
      by_cases h1 : k1 = k
      · simp [Smap.insert, h1, Smap.get, h]
      · simp only [Smap.insert, h1, if_false, Smap.get]
        by_cases h2 : k1 = k0
        · simp [h2]
        · simp [h2, ih]

theorem Smap.containsKey_eq_keys_contains {α : Type} (m : List (String × α)) (k : String) :
    Smap.containsKey m k = (Smap.keys m).contains k := by
  induction m with
  | nil => simp [Smap.containsKey, Smap.get, Smap.keys]
  | cons hd tl ih =>
      obtain ⟨k1, v1⟩ := hd
      by_cases h : k1 = k
      · simp [Smap.containsKey, Smap.get, Smap.keys, h]
      · have hne : (k == k1) = false := beq_eq_false_iff_ne.mpr (Ne.symm h)
        simp only [Smap.containsKey, Smap.get, h, if_false, Smap.keys, List.map_cons,
          List.contains_cons, hne, Bool.false_or]
        simpa [Smap.containsKey, Smap.keys] using ih

theorem Smap.mem_keys_insert {α : Type} (m : List (String × α)) (k a : String) (v : α)
    (h : a ∈ Smap.keys (Smap.insert m k v)) : a ∈ Smap.keys m ∨ a = k := by
  induction m with
  | nil =>
      right
      simpa [Smap.insert, Smap.keys] using h
  | cons hd tl ih =>
      obtain ⟨k1, v1⟩ := hd
      by_cases h1 : k1 = k
      · rw [show Smap.insert ((k1, v1) :: tl) k v = (k, v) :: tl from by
          simp [Smap.insert, h1]] at h
        simp only [Smap.keys, List.map_cons, List.mem_cons] at h ⊢
        rcases h with h2 | h2
        · right; exact h2
        · left; right; exact h2
      · rw [show Smap.insert ((k1, v1) :: tl) k v = (k1, v1) :: Smap.insert tl k v from by
          simp [Smap.insert, h1]] at h
        simp only [Smap.keys, List.map_cons, List.mem_cons] at h ⊢
        rcases h with h2 | h2
        · left; left; exact h2
        · rcases ih (by simpa [Smap.keys] using h2) with h3 | h3
          · left; right; simpa [Smap.keys] using h3
          · right; exact h3

theorem Smap.nodup_keys_insert {α : Type} (m : List (String × α)) (k : String) (v : α)
    (h : (Smap.keys m).Nodup) : (Smap.keys (Smap.insert m k v)).Nodup := by
  induction m with
  | nil => simp [Smap.insert, Smap.keys]
  | cons hd tl ih =>
      obtain ⟨k1, v1⟩ := hd
      simp only [Smap.keys, List.map_cons, List.nodup_cons] at h
      by_cases h1 : k1 = k
      · rw [show Smap.insert ((k1, v1) :: tl) k v = (k, v) :: tl from by
          simp [Smap.insert, h1]]
        simp only [Smap.keys, List.map_cons, List.nodup_cons]
        exact ⟨by rw [← h1]; exact h.1, h.2⟩
      · rw [show Smap.insert ((k1, v1) :: tl) k v = (k1, v1) :: Smap.insert tl k v from by
          simp [Smap.insert, h1]]
        simp only [Smap.keys, List.map_cons, List.nodup_cons]
        refine ⟨fun hmem => ?_, by simpa [Smap.keys] using ih h.2⟩
        rcases Smap.mem_keys_insert tl k k1 v (by simpa [Smap.keys] using hmem) with h2 | h2
        · exact h.1 (by simpa [Smap.keys] using h2)
        · exact h1 h2

theorem Smap.countKey_zero_of_not_mem {α : Type} (m : List (String × α)) (k : String)
    (h : k ∉ Smap.keys m) : Smap.countKey m k = 0 := by
  induction m with
  | nil => simp [Smap.countKey]
  | cons hd tl ih =>
      obtain ⟨k1, v1⟩ := hd
      simp only [Smap.keys, List.map_cons, List.mem_cons, not_or] at h
      have h1 : ¬ (k1 = k) := fun hk => h.1 hk.symm
      simp only [Smap.countKey, List.countP_cons, h1, decide_eq_true_eq, if_false]
      have := ih (by simpa [Smap.keys] using h.2)
      simpa [Smap.countKey, h1] using this

theorem Smap.countKey_insert_of_nodup {α : Type} (m : List (String × α)) (k : String) (v : α)
    (h : (Smap.keys m).Nodup) : Smap.countKey (Smap.insert m k v) k = 1 := by
  induction m with
  | nil => simp [Smap.insert, Smap.countKey]
  | cons hd tl ih =>
      obtain ⟨k1, v1⟩ := hd
      simp only [Smap.keys, List.map_cons, List.nodup_cons] at h
      by_cases h1 : k1 = k
      · rw [show Smap.insert ((k1, v1) :: tl) k v = (k, v) :: tl from by
          simp [Smap.insert, h1]]
        have htl : Smap.countKey tl k = 0 :=
          Smap.countKey_zero_of_not_mem tl k (by rw [← h1]; simpa [Smap.keys] using h.1)
        simp only [Smap.countKey, List.countP_cons] at htl ⊢
        simp [htl]
      · rw [show Smap.insert ((k1, v1) :: tl) k v = (k1, v1) :: Smap.insert tl k v from by
          simp [Smap.insert, h1]]
        have := ih h.2
        simp only [Smap.countKey, List.countP_cons] at this ⊢
        simp [h1, this]

/-! ### Normalizer lemmas -/

theorem foldl_addExtra_skip (kvs : List (String × Json)) (k : String)
    (h : ∀ p ∈ kvs, p.fst ≠ k) (acc : List (String × Json)) :
    Smap.get (kvs.foldl addExtra acc) k = Smap.get acc k := by
  induction kvs generalizing acc with
  | nil => rfl
  | cons hd tl ih =>
      obtain ⟨k1, v1⟩ := hd
      have hk1 : k1 ≠ k := h (k1, v1) (by simp)
      have htl : ∀ p ∈ tl, p.fst ≠ k := fun p hp => h p (by simp [hp])
      simp only [List.foldl_cons]
      rw [ih htl]
      unfold addExtra
      by_cases hr : recognizedKey (k1, v1).fst
      · simp [hr]
      · simp only [hr, Bool.false_eq_true, if_false]
        exact Smap.get_insert_ne acc k1 k v1 hk1

theorem foldl_addExtra_get (kvs : List (String × Json)) (k : String) (v : Json)
    (hnd : (Smap.keys kvs).Nodup) (hget : Smap.get kvs k = some v)
    (hk : recognizedKey k = false) (acc : List (String × Json)) :
    Smap.get (kvs.foldl addExtra acc) k = some v := by
  induction kvs generalizing acc with
  | nil => simp [Smap.get] at hget
  | cons hd tl ih =>
      obtain ⟨k1, v1⟩ := hd
      simp only [Smap.keys, List.map_cons, List.nodup_cons] at hnd
      by_cases h1 : k1 = k
      · have hv : v1 = v := by
          simpa [Smap.get, h1] using hget
        have hskip : ∀ p ∈ tl, p.fst ≠ k := by
          intro p hp hpk
          exact hnd.1 (by rw [h1]; rw [← hpk]; exact List.mem_map_of_mem Prod.fst hp)
        simp only [List.foldl_cons]
        rw [foldl_addExtra_skip tl k hskip]
        unfold addExtra
        simp only [h1, hk, Bool.false_eq_true, if_false]
        rw [hv]
        exact Smap.get_insert_self acc k v
      · have hget2 : Smap.get tl k = some v := by
          simpa [Smap.get, h1] using hget
        simp only [List.foldl_cons]
        exact ih hnd.2 hget2 (addExtra acc (k1, v1))

theorem convert_required_eq (m : List (String × Json)) :
    (convert_input_schema (.obj m)).required =
      if (extractedRequired m).isEmpty then none else some (extractedRequired m) := by
  simp only [convert_input_schema]
  cases hq : Smap.get m "required" with
  | none => simp [extractedRequired, hq]
  | some r => cases r <;> simp [extractedRequired, hq, Json.asArr]

/-! ### C2 -/

/-- C2: `call_tool` is total and always returns a well-formed envelope:
`success` equals the presence of the payload, exactly one of payload and
error message is populated, and an unregistered server name produces
`success = false` with the interpolated not-found error and no payload. -/
theorem c2_call_tool_result_envelope (st : ManagerState)
    (remote : String → String → List (String × Json) → Except String Json)
    (server_name tool_name : String) (arguments : Json) :
    ((call_tool st remote server_name tool_name arguments).success
        = (call_tool st remote server_name tool_name arguments).result.isSome) ∧
    ((call_tool st remote server_name tool_name arguments).result.isSome
        = !(call_tool st remote server_name tool_name arguments).error.isSome) ∧
    (Smap.containsKey st.connections server_name = false →
      call_tool st remote server_name tool_name arguments
        = { success := false, result := none,
            error := some ("Server '" ++ server_name ++ "' not found") }) := by
  by_cases hc : Smap.containsKey st.connections server_name
  · cases hr : remote server_name tool_name
        (match arguments with | .obj o => o | _ => []) with
    | ok r => simp [call_tool, hc, hr]
    | error e => simp [call_tool, hc, hr]
  · simp [call_tool, hc]

/-- Witness for C2 at a concrete unknown server name. -/
theorem c2_witness :
    call_tool { connections := [], nextPid := 0 } (fun _ _ _ => .ok .null) "db" "query" .null
      = { success := false, result := none, error := some "Server 'db' not found" } :=
  (c2_call_tool_result_envelope { connections := [], nextPid := 0 }
    (fun _ _ _ => .ok .null) "db" "query" .null).2.2 rfl

/-! ### C5 -/

theorem checkRequiredFields_ok_iff (toolName : String) (props : List (String × Json))
    (l : List String) :
    checkRequiredFields toolName props l = .ok () ↔
      ∀ r ∈ l, Smap.containsKey props r = true := by
  induction l with
  | nil => simp [checkRequiredFields]
  | cons r rest ih =>
      by_cases h : Smap.containsKey props r
      · simp [checkRequiredFields, h, ih]
      · simp only [checkRequiredFields, h, Bool.false_eq_true, if_false]
        constructor
        · intro hcontra
          simp at hcontra
        · intro hall
          exact absurd (hall r (by simp)) h

/-- C5: `validate_tool_schema` accepts a tool exactly when its schema type
is the literal object type and every required name is a key of the
properties map. -/
theorem c5_validate_tool_schema_iff (tool : MCPTool) :
    validate_tool_schema tool = .ok () ↔
      (tool.input_schema.schema_type = "object" ∧
        ∀ r ∈ tool.input_schema.required.getD [],
          Smap.containsKey tool.input_schema.properties r = true) := by
  unfold validate_tool_schema
  by_cases ht : tool.input_schema.schema_type = "object"
  · cases hreq : tool.input_schema.required with
    | none => simp [ht, hreq]
    | some l => simp [ht, hreq, checkRequiredFields_ok_iff]
  · simp [ht]

/-- Witness for C5 at a concrete valid tool. -/
theorem c5_witness : validate_tool_schema toolGood = .ok () :=
  (c5_validate_tool_schema_iff toolGood).mpr ⟨rfl, by decide⟩

/-! ### C7 -/

/-- C7: the Schema Normalizer is total and lossless on unknown vocabulary:
a non-object input yields the default empty-object schema, and on object
input every unrecognized top-level key of the (duplicate-free) object is
preserved with its value in the catch-all bag. -/
theorem c7_normalizer_total_and_lossless :
    (∀ j : Json, j.isObj = false → convert_input_schema j = defaultInputSchema) ∧
    (∀ (kvs : List (String × Json)) (k : String) (v : Json),
        (Smap.keys kvs).Nodup → Smap.get kvs k = some v → recognizedKey k = false →
        Smap.get (convert_input_schema (.obj kvs)).additional_properties k = some v) := by
  constructor
  · intro j hj
    cases j with
    | obj m => simp [Json.isObj] at hj
    | null => rfl
    | bool b => rfl
    | num n => rfl
    | str s => rfl
    | arr xs => rfl
  · intro kvs k v hnd hget hk
    show Smap.get (kvs.foldl addExtra []) k = some v
    exact foldl_addExtra_get kvs k v hnd hget hk []

/-- Witness for C7: a string input collapses to the default schema and an
unrecognized key survives the round trip. -/
theorem c7_witness :
    convert_input_schema (.str "nope") = defaultInputSchema ∧
    Smap.get (convert_input_schema
        (.obj [("custom", .bool true)])).additional_properties "custom"
      = some (.bool true) :=
  ⟨c7_normalizer_total_and_lossless.1 (.str "nope") rfl,
   c7_normalizer_total_and_lossless.2 [("custom", .bool true)] "custom" (.bool true)
     (by simp [Smap.keys]) rfl (by decide)⟩

/-! ### C3 -/

/-- Counterexample to C3: feeding the Schema Normalizer an object whose
`required` array names a field that has no entry under `properties`
produces a schema with `required = ["x"]` and empty `properties`, so the
round-trip invariant fails on it. -/
theorem c3_counterexample :
    (convert_input_schema (.obj [("required", .arr [.str "x"])])).required = some ["x"] ∧
    (convert_input_schema (.obj [("required", .arr [.str "x"])])).properties = [] ∧
    schemaConsistent (convert_input_schema (.obj [("required", .arr [.str "x"])])) = false := by
  refine ⟨rfl, rfl, rfl⟩

/-- C3 as amended: the normalizer preserves the invariant only for inputs
that already satisfy it — when every string of the input's `required`
array is a key of its `properties` object, the normalized schema satisfies
the invariant (the normalizer itself enforces nothing; violations are
caught later by `validate_tool_schema`). -/
theorem c3_schema_invariant_conditional (j : Json)
    (h : requiredSubsetOfProps j = true) :
    schemaConsistent (convert_input_schema j) = true := by
  cases j with
  | obj m =>
      have hprops : (convert_input_schema (.obj m)).properties = extractedProps m := rfl
      have hreq := convert_required_eq m
      have hsub : ∀ r ∈ extractedRequired m, Smap.containsKey (extractedProps m) r = true := by
        simpa [requiredSubsetOfProps, List.all_eq_true] using h
      unfold schemaConsistent
      rw [hreq, hprops]
      by_cases he : (extractedRequired m).isEmpty
      · rw [if_pos he]
        rfl
      · rw [if_neg he, Option.getD_some, List.all_eq_true]
        intro r hr
        exact hsub r hr
  | null => rfl
  | bool b => rfl
  | num n => rfl
  | str s => rfl
  | arr xs => rfl

/-- Witness for C3's amended statement on a well-formed concrete schema. -/
theorem c3_witness :
    schemaConsistent (convert_input_schema
      (.obj [("properties", .obj [("x", .null)]), ("required", .arr [.str "x"])])) = true :=
  c3_schema_invariant_conditional
    (.obj [("properties", .obj [("x", .null)]), ("required", .arr [.str "x"])]) (by decide)

/-! ### C1 -/

/-- Counterexample to C1: with server `a` already registered (pid 0, one
spawn so far), a second `start_server` call for the same name spawns a
fresh process (the spawn counter advances to 2) and replaces the
registered connection with the new one, instead of returning success with
the registry untouched. -/
theorem c1_counterexample :
    start_server { connections := [("a", 0)], nextPid := 1 } spawnAlwaysOk cfgA
      = .ok ({ connections := [("a", 1)], nextPid := 2 },
             "Started and connected to MCP server: a") ∧
    ({ connections := [("a", 1)], nextPid := 2 } : ManagerState)
      ≠ { connections := [("a", 0)], nextPid := 1 } := by
  constructor
  · rfl
  · decide

/-- C1 as amended: `start_server` performs no already-registered check;
calling it twice with the same stdio configuration spawns two processes,
and the registry afterwards holds exactly one connection under that name —
the one of the second spawn, which replaced the first. -/
theorem c1_start_twice_respawns (st : ManagerState)
    (spawn : MCPServerConfig → Except String Unit) (cfg : MCPServerConfig)
    (ht : cfg.transport = "stdio") (hc : ∃ c, cfg.command = some c)
    (hs : spawn cfg = .ok ()) (hnd : (Smap.keys st.connections).Nodup) :
    ∃ st1 st2 : ManagerState,
      start_server st spawn cfg
        = .ok (st1, "Started and connected to MCP server: " ++ cfg.name) ∧
      start_server st1 spawn cfg
        = .ok (st2, "Started and connected to MCP server: " ++ cfg.name) ∧
      st1.nextPid = st.nextPid + 1 ∧
      st2.nextPid = st.nextPid + 2 ∧
      Smap.get st2.connections cfg.name = some (st.nextPid + 1) ∧
      Smap.countKey st2.connections cfg.name = 1 := by
  obtain ⟨c, hcmd⟩ := hc
  refine ⟨{ connections := Smap.insert st.connections cfg.name st.nextPid,
            nextPid := st.nextPid + 1 },
          { connections := Smap.insert (Smap.insert st.connections cfg.name st.nextPid)
              cfg.name (st.nextPid + 1),
            nextPid := st.nextPid + 2 }, ?_, ?_, rfl, rfl, ?_, ?_⟩
  · simp [start_server, ht, start_stdio_server, hcmd, hs]
  · simp [start_server, ht, start_stdio_server, hcmd, hs]
  · exact Smap.get_insert_self _ cfg.name (st.nextPid + 1)
  · exact Smap.countKey_insert_of_nodup _ cfg.name (st.nextPid + 1)
      (Smap.nodup_keys_insert st.connections cfg.name st.nextPid hnd)

/-- Witness for the amended C1 from the empty registry. -/
theorem c1_witness :
    ∃ st1 st2 : ManagerState,
      start_server { connections := [], nextPid := 0 } spawnAlwaysOk cfgA
        = .ok (st1, "Started and connected to MCP server: " ++ cfgA.name) ∧
      start_server st1 spawnAlwaysOk cfgA
        = .ok (st2, "Started and connected to MCP server: " ++ cfgA.name) ∧
      st1.nextPid = 0 + 1 ∧
      st2.nextPid = 0 + 2 ∧
      Smap.get st2.connections cfgA.name = some (0 + 1) ∧
      Smap.countKey st2.connections cfgA.name = 1 :=
  c1_start_twice_respawns { connections := [], nextPid := 0 } spawnAlwaysOk cfgA
    rfl ⟨"cat", rfl⟩ rfl (by simp [Smap.keys])

/-! ### C4 -/

/-- Counterexample to C4: starting a concrete http configuration returns
success with the manager state unchanged, and the status query still
reports the server as not alive — no endpoint is recorded as reachable. -/
theorem c4_counterexample :
    start_server { connections := [], nextPid := 0 } spawnAlwaysOk httpCfg
      = .ok ({ connections := [], nextPid := 0 }, "HTTP server configured: h") ∧
    is_server_alive { connections := [], nextPid := 0 } "h" = false :=
  ⟨rfl, rfl⟩

/-- C4 as amended: for http/websocket transports `start_server` creates no
process, performs no probe and no validation beyond the transport
dispatch, and registers nothing: it returns success with the
transport-specific message and the manager state unchanged, so the
manager's status queries treat the server as reachable only if a
connection was already registered under the name. -/
theorem c4_network_start_is_noop (st : ManagerState)
    (spawn : MCPServerConfig → Except String Unit) (cfg : MCPServerConfig)
    (h : cfg.transport = "http" ∨ cfg.transport = "websocket") :
    start_server st spawn cfg
      = .ok (st, (if cfg.transport = "http" then "HTTP server configured: "
                  else "WebSocket server configured: ") ++ cfg.name) := by
  rcases h with h | h
  · simp [start_server, h]
  · simp [start_server, h]

/-- Witness for the amended C4 at the concrete http configuration. -/
theorem c4_witness :
    start_server { connections := [], nextPid := 0 } spawnAlwaysOk httpCfg
      = .ok ({ connections := [], nextPid := 0 },
             (if httpCfg.transport = "http" then "HTTP server configured: "
              else "WebSocket server configured: ") ++ httpCfg.name) :=
  c4_network_start_is_noop { connections := [], nextPid := 0 } spawnAlwaysOk httpCfg
    (Or.inl rfl)

/-! ### C6 -/

/-- C6: `list_all_tools` never fails, and with two registered servers of
which the second fails to list, it returns exactly the succeeding server's
tools, each renamed to carry the owning server's name and the `:`
separator. -/
theorem c6_list_all_tools_partial_results (st : ManagerState)
    (listRemote : String → Except String (List RawTool)) (s1 s2 : String)
    (raw1 : List RawTool) (e : String)
    (hk : Smap.keys st.connections = [s1, s2])
    (h1 : listRemote s1 = .ok raw1) (h2 : listRemote s2 = .error e) :
    (∀ (st0 : ManagerState) (lr : String → Except String (List RawTool)),
        ∃ ts, list_all_tools st0 lr = .ok ts) ∧
    list_all_tools st listRemote
      = .ok (raw1.map (fun r =>
          { name := s1 ++ ":" ++ r.name
            description := r.description.getD ""
            input_schema := convert_input_schema r.input_schema })) := by
  constructor
  · intro st0 lr
    exact ⟨_, rfl⟩
  · have hc1 : Smap.containsKey st.connections s1 = true := by
      rw [Smap.containsKey_eq_keys_contains, hk]
      simp
    have hc2 : Smap.containsKey st.connections s2 = true := by
      rw [Smap.containsKey_eq_keys_contains, hk]
      simp
    unfold list_all_tools
    rw [hk]
    simp only [collectAllTools, list_tools, hc1, hc2, if_true, h1, h2, List.append_nil]
    simp only [List.map_map]
    rfl

/-- Witness for C6 at a concrete two-server registry. -/
theorem c6_witness :
    list_all_tools { connections := [("s1", 0), ("s2", 1)], nextPid := 2 } listOneGoodServer
      = .ok ([rawT1].map (fun r =>
          { name := "s1" ++ ":" ++ r.name
            description := r.description.getD ""
            input_schema := convert_input_schema r.input_schema })) :=
  (c6_list_all_tools_partial_results
    { connections := [("s1", 0), ("s2", 1)], nextPid := 2 } listOneGoodServer
    "s1" "s2" [rawT1] "connection closed" rfl rfl rfl).2

/-! ### C8 -/

/-- C8: in the `mcpServers` mapping shape every successfully deserialized
entry carries the map key as its `name` and the stdio transport, and the
spec's example blob normalizes to the single `echo` stdio server. -/
theorem c8_mapping_shape_name_and_transport :
    (∀ (name : String) (sc : Json) (cfg : MCPServerConfig),
        parseServerConfig (injectEntry name sc) = .ok cfg →
        cfg.name = name ∧ cfg.transport = "stdio") ∧
    normalizeServersConfig
        (.obj [("mcpServers", .obj [("echo", .obj [("command", .str "echo")])])])
      = .ok [echoCfg] := by
  constructor
  · intro name sc cfg h
    cases sc with
    | null => simp [injectEntry, parseServerConfig] at h
    | bool b => simp [injectEntry, parseServerConfig] at h
    | num n => simp [injectEntry, parseServerConfig] at h
    | str s => simp [injectEntry, parseServerConfig] at h
    | arr xs => simp [injectEntry, parseServerConfig] at h
    | obj o =>
        have hname : Smap.get (Smap.insert (Smap.insert o "name" (Json.str name))
            "transport" (Json.str "stdio")) "name" = some (.str name) := by
          rw [Smap.get_insert_ne _ _ _ _ (by decide)]
          exact Smap.get_insert_self _ _ _
        have hpt : parseTransport (Smap.insert (Smap.insert o "name" (Json.str name))
            "transport" (Json.str "stdio")) = .ok "stdio" := by
          unfold parseTransport
          rw [Smap.get_insert_self]
        have hinj : injectEntry name (.obj o)
            = .obj (Smap.insert (Smap.insert o "name" (Json.str name))
                "transport" (Json.str "stdio")) := rfl
        rw [hinj] at h
        simp only [parseServerConfig, hname, hpt] at h
        repeat' split at h
        all_goals simp_all
        rw [← h]
        exact ⟨rfl, rfl⟩
  · rfl

/-- Witness for C8's universal part at the example entry. -/
theorem c8_witness : echoCfg.name = "echo" ∧ echoCfg.transport = "stdio" :=
  c8_mapping_shape_name_and_transport.1 "echo" (.obj [("command", .str "echo")]) echoCfg rfl

/-! ### C9 -/

/-- C9: a configuration blob with neither an `mcpServers` object nor a
`servers` array makes `list_tools_from_config` fail with the descriptive
shape error, with the manager state returned untouched — no server is
started or contacted. -/
theorem c9_bad_shape_rejected_before_start (st : ManagerState)
    (spawn : MCPServerConfig → Except String Unit)
    (listRemote : String → Except String (List RawTool)) (config : Json)
    (h1 : (config.getKey "mcpServers").bind Json.asObj = none)
    (h2 : (config.getKey "servers").bind Json.asArr = none) :
    list_tools_from_config st spawn listRemote config
      = (.error "Invalid config: missing mcpServers object or servers array", st) := by
  unfold list_tools_from_config normalizeServersConfig
  rw [h1, h2]

/-- Witness for C9 at a concrete shapeless blob. -/
theorem c9_witness :
    list_tools_from_config { connections := [], nextPid := 0 } spawnAlwaysOk
        listOneGoodServer (.obj [("foo", .str "bar")])
      = (.error "Invalid config: missing mcpServers object or servers array",
         { connections := [], nextPid := 0 }) :=
  c9_bad_shape_rejected_before_start { connections := [], nextPid := 0 } spawnAlwaysOk
    listOneGoodServer (.obj [("foo", .str "bar")]) rfl rfl

/-! ### C10 -/

theorem parseMcpEntries_error_of_mem (kvs : List (String × Json)) (name : String)
    (sc : Json) (e : String) (hmem : (name, sc) ∈ kvs)
    (hfail : parseServerConfig (injectEntry name sc) = .error e) :
    ∃ msg, parseMcpEntries kvs = .error msg := by
  induction kvs with
  | nil => cases hmem
  | cons hd tl ih =>
      obtain ⟨n1, s1⟩ := hd
      rcases List.mem_cons.mp hmem with heq | hmem2
      · obtain ⟨hn, hs⟩ := Prod.mk.injEq name sc n1 s1 ▸ heq
        subst hn
        subst hs
        exact ⟨"Invalid server config: " ++ e, by simp [parseMcpEntries, hfail]⟩
      · cases hph : parseServerConfig (injectEntry n1 s1) with
        | error e1 =>
            exact ⟨"Invalid server config: " ++ e1, by simp [parseMcpEntries, hph]⟩
        | ok c =>
            obtain ⟨msg, hm⟩ := ih hmem2
            exact ⟨msg, by simp [parseMcpEntries, hph, hm]⟩

theorem parseServersArray_error_of_mem (xs : List Json) (sc : Json) (e : String)
    (hmem : sc ∈ xs) (hfail : parseServerConfig sc = .error e) :
    ∃ msg, parseServersArray xs = .error msg := by
  induction xs with
  | nil => cases hmem
  | cons hd tl ih =>
      rcases List.mem_cons.mp hmem with heq | hmem2
      · subst heq
        exact ⟨"Invalid server config: " ++ e, by simp [parseServersArray, hfail]⟩
      · cases hph : parseServerConfig hd with
        | error e1 =>
            exact ⟨"Invalid server config: " ++ e1, by simp [parseServersArray, hph]⟩
        | ok c =>
            obtain ⟨msg, hm⟩ := ih hmem2
            exact ⟨msg, by simp [parseServersArray, hph, hm]⟩

/-- C10: one undeserializable server entry (in either accepted shape)
makes the whole `list_tools_from_config` call return an error with the
manager state untouched — no tools for any server — whereas whenever all
entries deserialize, the aggregate phase always returns `Ok` (per-server
start or list failures only skip that server, they never fail the call). -/
theorem c10_entry_deserialization_failure_aborts (st : ManagerState)
    (spawn : MCPServerConfig → Except String Unit)
    (listRemote : String → Except String (List RawTool)) (config : Json) :
    (∀ (kvs : List (String × Json)) (name : String) (sc : Json) (e : String),
        (config.getKey "mcpServers").bind Json.asObj = some kvs →
        (name, sc) ∈ kvs →
        parseServerConfig (injectEntry name sc) = .error e →
        ∃ msg, list_tools_from_config st spawn listRemote config = (.error msg, st)) ∧
    (∀ (xs : List Json) (sc : Json) (e : String),
        (config.getKey "mcpServers").bind Json.asObj = none →
        (config.getKey "servers").bind Json.asArr = some xs →
        sc ∈ xs →
        parseServerConfig sc = .error e →
        ∃ msg, list_tools_from_config st spawn listRemote config = (.error msg, st)) ∧
    (∀ cfgs, normalizeServersConfig config = .ok cfgs →
        ∃ tools st2, list_tools_from_config st spawn listRemote config = (.ok tools, st2)) := by
  refine ⟨?_, ?_, ?_⟩
  · intro kvs name sc e hobj hmem hfail
    obtain ⟨msg, hmsg⟩ := parseMcpEntries_error_of_mem kvs name sc e hmem hfail
    refine ⟨msg, ?_⟩
    unfold list_tools_from_config normalizeServersConfig
    simp [hobj, hmsg]
  · intro xs sc e hnone hsome hmem hfail
    obtain ⟨msg, hmsg⟩ := parseServersArray_error_of_mem xs sc e hmem hfail
    refine ⟨msg, ?_⟩
    unfold list_tools_from_config normalizeServersConfig
    simp [hnone, hsome, hmsg]
  · intro cfgs hok
    unfold list_tools_from_config
    rw [hok]
    exact ⟨_, _, rfl⟩

/-- Witness for C10 at a blob whose second entry has a non-string command. -/
theorem c10_witness :
    ∃ msg, list_tools_from_config { connections := [], nextPid := 0 } spawnAlwaysOk
        listOneGoodServer
        (.obj [("mcpServers", .obj [("good", .obj [("command", .str "a")]),
                                    ("bad", .obj [("command", .num 5)])])])
      = (.error msg, { connections := [], nextPid := 0 }) :=
  (c10_entry_deserialization_failure_aborts { connections := [], nextPid := 0 }
      spawnAlwaysOk listOneGoodServer
      (.obj [("mcpServers", .obj [("good", .obj [("command", .str "a")]),
                                  ("bad", .obj [("command", .num 5)])])])).1
    [("good", .obj [("command", .str "a")]), ("bad", .obj [("command", .num 5)])]
    "bad" (.obj [("command", .num 5)]) "invalid type for field command"
    rfl (List.Mem.tail _ (List.Mem.head _)) rfl
